import Mathlib

/-!
# Parse tree of the fish shell: node store and documented grammar

A shallow embedding of `parse_tree.h`:

* the enumerations `parse_token_type_t` and `parse_keyword_t`;
* the node record `parse_node_t`, its constructor and `child_offset`;
* the store `parse_node_tree_t` (a `std::vector<parse_node_t>`);
* the grammar written in the header's closing comment, as derivation trees
  with one constructor per alternative and a `yield` reading off the tokens.

`size_t` is modelled by `Nat` together with an explicit width `w` (in bits);
arithmetic that the header performs on `size_t` is reduced modulo `2 ^ w`.
-/

namespace ParseTree

/-! ## Enumerations -/

/-- Kinds of node, in the order of `enum parse_token_type_t`. -/
inductive parse_token_type_t
  | token_type_invalid
  -- Non-terminal tokens
  | symbol_job_list
  | symbol_job
  | symbol_job_continuation
  | symbol_statement
  | symbol_block_statement
  | symbol_block_header
  | symbol_for_header
  | symbol_while_header
  | symbol_begin_header
  | symbol_function_header
  | symbol_if_statement
  | symbol_if_clause
  | symbol_else_clause
  | symbol_else_continuation
  | symbol_switch_statement
  | symbol_case_item_list
  | symbol_case_item
  | symbol_boolean_statement
  | symbol_decorated_statement
  | symbol_plain_statement
  | symbol_arguments_or_redirections_list
  | symbol_argument_or_redirection
  | symbol_argument_list_nonempty
  | symbol_argument_list
  | symbol_optional_background
  -- Terminal types
  | parse_token_type_string
  | parse_token_type_pipe
  | parse_token_type_redirection
  | parse_token_type_background
  | parse_token_type_end
  | parse_token_type_terminate
  deriving DecidableEq, Repr

namespace parse_token_type_t

/-- Numeric value of an enumerator: C++ numbers them from 0 in declaration order. -/
def toNat : parse_token_type_t → Nat
  | token_type_invalid => 0
  | symbol_job_list => 1
  | symbol_job => 2
  | symbol_job_continuation => 3
  | symbol_statement => 4
  | symbol_block_statement => 5
  | symbol_block_header => 6
  | symbol_for_header => 7
  | symbol_while_header => 8
  | symbol_begin_header => 9
  | symbol_function_header => 10
  | symbol_if_statement => 11
  | symbol_if_clause => 12
  | symbol_else_clause => 13
  | symbol_else_continuation => 14
  | symbol_switch_statement => 15
  | symbol_case_item_list => 16
  | symbol_case_item => 17
  | symbol_boolean_statement => 18
  | symbol_decorated_statement => 19
  | symbol_plain_statement => 20
  | symbol_arguments_or_redirections_list => 21
  | symbol_argument_or_redirection => 22
  | symbol_argument_list_nonempty => 23
  | symbol_argument_list => 24
  | symbol_optional_background => 25
  | parse_token_type_string => 26
  | parse_token_type_pipe => 27
  | parse_token_type_redirection => 28
  | parse_token_type_background => 29
  | parse_token_type_end => 30
  | parse_token_type_terminate => 31

end parse_token_type_t

open parse_token_type_t

/-- The enumerator `FIRST_PARSE_TOKEN_TYPE = parse_token_type_string`. -/
def FIRST_PARSE_TOKEN_TYPE : parse_token_type_t := parse_token_type_string

/-- The enumerators declared under the header's `// Terminal types` comment. -/
def terminal_types : List parse_token_type_t :=
  [parse_token_type_string, parse_token_type_pipe, parse_token_type_redirection,
   parse_token_type_background, parse_token_type_end, parse_token_type_terminate]

/-- The enumerators declared under the header's `// Non-terminal tokens` comment. -/
def nonterminal_symbols : List parse_token_type_t :=
  [symbol_job_list, symbol_job, symbol_job_continuation, symbol_statement,
   symbol_block_statement, symbol_block_header, symbol_for_header, symbol_while_header,
   symbol_begin_header, symbol_function_header,
   symbol_if_statement, symbol_if_clause, symbol_else_clause, symbol_else_continuation,
   symbol_switch_statement, symbol_case_item_list, symbol_case_item,
   symbol_boolean_statement, symbol_decorated_statement, symbol_plain_statement,
   symbol_arguments_or_redirections_list, symbol_argument_or_redirection,
   symbol_argument_list_nonempty, symbol_argument_list,
   symbol_optional_background]

/-- The node kinds as the specification enumerates them: the symbols of the
production table of its section 4.4, row by row, followed by the six terminal
kinds. Each entry is the enumerator carrying the specification's name
(`args_or_redirs_list` abbreviates `arguments_or_redirections_list`). -/
def spec_kinds : List parse_token_type_t :=
  [symbol_job_list,                          -- job_list
   symbol_job,                               -- job
   symbol_job_continuation,                  -- job_continuation
   symbol_statement,                         -- statement
   symbol_if_statement,                      -- if_statement
   symbol_if_clause,                         -- if_clause
   symbol_else_clause,                       -- else_clause
   symbol_else_continuation,                 -- else_continuation
   symbol_switch_statement,                  -- switch_statement
   symbol_case_item_list,                    -- case_item_list
   symbol_case_item,                         -- case_item
   symbol_boolean_statement,                 -- boolean_statement
   symbol_decorated_statement,               -- decorated_statement
   symbol_plain_statement,                   -- plain_statement
   symbol_block_statement,                   -- block_statement
   symbol_block_header,                      -- block_header
   symbol_for_header,                        -- for_header
   symbol_while_header,                      -- while_header
   symbol_begin_header,                      -- begin_header
   symbol_function_header,                   -- function_header
   symbol_arguments_or_redirections_list,    -- args_or_redirs_list
   symbol_argument_list,                     -- argument_list
   symbol_argument_list_nonempty,            -- argument_list_nonempty
   symbol_optional_background,               -- optional_background
   parse_token_type_string,                  -- string
   parse_token_type_pipe,                    -- pipe
   parse_token_type_redirection,             -- redirection
   parse_token_type_background,              -- background
   parse_token_type_end,                     -- end
   parse_token_type_terminate]               -- terminate

/-- Keywords, in the order of `enum parse_keyword_t`. -/
inductive parse_keyword_t
  | parse_keyword_none
  | parse_keyword_if
  | parse_keyword_else
  | parse_keyword_for
  | parse_keyword_in
  | parse_keyword_while
  | parse_keyword_begin
  | parse_keyword_function
  | parse_keyword_switch
  | parse_keyword_case
  | parse_keyword_end
  | parse_keyword_and
  | parse_keyword_or
  | parse_keyword_not
  | parse_keyword_command
  | parse_keyword_builtin
  deriving DecidableEq, Repr

open parse_keyword_t

/-! ## Nodes and the node store -/

/-- The value `static_cast<node_offset_t>(-1)` for a `size_t` of `w` bits. -/
def NODE_OFFSET_INVALID (w : Nat) : Nat := Int.toNat ((-1 : Int) % (2 : Int) ^ w)

/-- The record `parse_node_t`; `size_t` and `uint32_t` fields are naturals. -/
structure parse_node_t where
  type : parse_token_type_t
  source_start : Nat
  source_length : Nat
  child_start : Nat
  child_count : Nat
  tag : Nat
  deriving DecidableEq, Repr

namespace parse_node_t

/-- The constructor `explicit parse_node_t(parse_token_type_t ty)`. -/
def init (ty : parse_token_type_t) : parse_node_t :=
  { type := ty, source_start := 0, source_length := 0, child_start := 0, child_count := 0,
    tag := 0 }

/-- The fields of a node fit their C++ types (`size_t` of `w` bits, `uint32_t`). -/
def representable (w : Nat) (n : parse_node_t) : Prop :=
  n.source_start < 2 ^ w ∧ n.source_length < 2 ^ w ∧
  n.child_start < 2 ^ w ∧ n.child_count < 2 ^ w ∧ n.tag < 2 ^ 32

instance (w : Nat) (n : parse_node_t) : Decidable (representable w n) := by
  unfold representable; infer_instance

/-- The method `child_offset`: `PARSE_ASSERT(which < child_count)` is `assert`,
which aborts when the condition fails (`none`); otherwise the result is
`child_start + which` computed in `size_t`, that is modulo `2 ^ w`. -/
def child_offset (w : Nat) (n : parse_node_t) (which : Nat) : Option Nat :=
  if which < n.child_count then some ((n.child_start + which) % 2 ^ w) else none

/-- Offset `o` lies in the child range `[child_start, child_start + child_count)`. -/
def covers (n : parse_node_t) (o : Nat) : Prop :=
  n.child_start ≤ o ∧ o < n.child_start + n.child_count

instance (n : parse_node_t) (o : Nat) : Decidable (covers n o) := by
  unfold covers; infer_instance

end parse_node_t

/-- The store `parse_node_tree_t`, a `std::vector<parse_node_t>`. -/
abbrev parse_node_tree_t := List parse_node_t

namespace parse_node_tree_t

/-- The member `size()` of the vector. -/
def size (t : parse_node_tree_t) : Nat := t.length

/-- Invariant 1 of the specification: `child_start + child_count ≤ tree.size()`
for every node with children. -/
def children_in_store (t : parse_node_tree_t) : Prop :=
  ∀ n ∈ t, 0 < n.child_count → n.child_start + n.child_count ≤ t.size

/-- Invariant 2 of the specification: the child ranges of two distinct nodes of
the store (nodes at different positions) share no store offset. -/
def ranges_disjoint (t : parse_node_tree_t) : Prop :=
  ∀ a, ∀ ha : a < t.length, ∀ b, ∀ hb : b < t.length, a ≠ b →
    ∀ o, o < t.length → ¬ ((t.get ⟨a, ha⟩).covers o ∧ (t.get ⟨b, hb⟩).covers o)

instance (t : parse_node_tree_t) : Decidable (children_in_store t) := by
  unfold children_in_store; infer_instance

instance (t : parse_node_tree_t) : Decidable (ranges_disjoint t) := by
  unfold ranges_disjoint; infer_instance

end parse_node_tree_t

/-- A small store used to exercise the theorems: a root with two children, the
second of which has one child of its own. -/
def sample_tree : parse_node_tree_t :=
  [ { type := symbol_job_list, source_start := 0, source_length := 5, child_start := 1,
      child_count := 2, tag := 0 },
    { type := symbol_job, source_start := 0, source_length := 3, child_start := 0,
      child_count := 0, tag := 0 },
    { type := symbol_job_list, source_start := 3, source_length := 2, child_start := 3,
      child_count := 1, tag := 0 },
    { type := symbol_job, source_start := 3, source_length := 2, child_start := 0,
      child_count := 0, tag := 0 } ]

/-! ## The grammar documented in the header

The closing comment of `parse_tree.h` gives the grammar of fish. Each
nonterminal becomes a type of derivation trees with one constructor per
alternative, in the order of the comment, and `yield` reads off the derived
token sequence. A keyword terminal (`<IF>`, `SWITCH`, `AND`, ...) is the string
token classified with that keyword.
-/

/-- Modelled from the spec: the token handed to the grammar; `tokenizer.h` and
the parser's token record are not among the sources. A token has one of the
terminal kinds of `parse_token_type_t`, and a string token also carries its
keyword classification (`parse_keyword_none` for an ordinary string). -/
inductive token
  | TOK_STRING (keyword : parse_keyword_t)
  | TOK_PIPE
  | TOK_REDIRECTION
  | TOK_BACKGROUND
  | TOK_END
  | TOK_TERMINATE
  deriving DecidableEq, Repr

open token

/-- The terminal kind of a token. -/
def token.type : token → parse_token_type_t
  | TOK_STRING _ => parse_token_type_string
  | TOK_PIPE => parse_token_type_pipe
  | TOK_REDIRECTION => parse_token_type_redirection
  | TOK_BACKGROUND => parse_token_type_background
  | TOK_END => parse_token_type_end
  | TOK_TERMINATE => parse_token_type_terminate

/-- The keyword of a token; only string tokens are classified. -/
def token.keyword : token → parse_keyword_t
  | TOK_STRING k => k
  | _ => parse_keyword_none

/-- The symbol `STATEMENT_TERMINATOR`, used by the grammar without a rule of its
own: the tokens it covers are left unconstrained. -/
structure STATEMENT_TERMINATOR where
  tokens : List token
  deriving DecidableEq, Repr

/-- The symbol `var_name`, used by `for_header` without a rule of its own: the
tokens it covers are left unconstrained. -/
structure var_name where
  tokens : List token
  deriving DecidableEq, Repr

/-- The symbol `function_name`, used by `function_header` without a rule of its
own: the tokens it covers are left unconstrained. -/
structure function_name where
  tokens : List token
  deriving DecidableEq, Repr

/-- Rule `terminator = <TOK_END> | <TOK_BACKGROUND>`. -/
inductive terminator
  | tok_end
  | tok_background
  deriving DecidableEq, Repr

/-- Rule `optional_background = <empty> | <TOK_BACKGROUND>`. -/
inductive optional_background
  | empty
  | background
  deriving DecidableEq, Repr

/-- Rule `redirection = <TOK_REDIRECTION>`. -/
inductive redirection
  | mk
  deriving DecidableEq, Repr

/-- Rule `argument_or_redirection = redirection | <TOK_STRING>`. -/
inductive argument_or_redirection
  | redirection (r : redirection)
  | string (keyword : parse_keyword_t)
  deriving DecidableEq, Repr

/-- Rule `arguments_or_redirections_list = <empty> |
argument_or_redirection arguments_or_redirections_list`. -/
inductive arguments_or_redirections_list
  | empty
  | cons (a : argument_or_redirection) (rest : arguments_or_redirections_list)
  deriving DecidableEq, Repr

mutual
/-- Rule `argument_list_nonempty = <TOK_STRING> argument_list`. -/
inductive argument_list_nonempty
  | mk (keyword : parse_keyword_t) (rest : argument_list)
/-- Rule `argument_list = <empty> | argument_list_nonempty`. -/
inductive argument_list
  | empty
  | nonempty (l : argument_list_nonempty)
end

/-- Rule `plain_statement = COMMAND arguments_or_redirections_list
optional_background`. The header writes the first terminal `COMMAND`, the name
it also gives the keyword of `decorated_statement`, and does not say whether it
stands for that keyword or for the command word itself. A derivation records
the keyword classification of the string token found there in `command`, so the
type holds the derivations of both readings: those of the rule read with the
keyword are the trees whose `command` is `parse_keyword_command`. A statement
proved for all derivations therefore holds under either reading. -/
inductive plain_statement
  | mk (command : parse_keyword_t) (args : arguments_or_redirections_list)
      (bg : optional_background)
  deriving DecidableEq, Repr

/-- Rule `decorated_statement = COMMAND plain_statement | BUILTIN plain_statement
| plain_statement`, with the keywords `command` and `builtin`. -/
inductive decorated_statement
  | command (p : plain_statement)
  | builtin (p : plain_statement)
  | plain (p : plain_statement)
  deriving DecidableEq, Repr

/-- Rule `for_header = FOR var_name IN arguments_or_redirections_list`. -/
inductive for_header
  | mk (v : var_name) (args : arguments_or_redirections_list)

/-- Rule `begin_header = BEGIN`. -/
inductive begin_header
  | mk

/-- Rule `function_header = FUNCTION function_name argument_list`. -/
inductive function_header
  | mk (name : function_name) (args : argument_list)

mutual
/-- Rule `job_list = <empty> | <TOK_END> job_list | job job_list`. -/
inductive job_list
  | empty
  | tok_end (rest : job_list)
  | cons (j : job) (rest : job_list)
/-- Rule `job = statement job_continuation`. -/
inductive job
  | mk (s : statement) (c : job_continuation)
/-- Rule `job_continuation = <empty> | <TOK_PIPE> statement job_continuation`. -/
inductive job_continuation
  | empty
  | pipe (s : statement) (c : job_continuation)
/-- Rule `statement = boolean_statement | block_statement | if_statement |
switch_statement | decorated_statement`. -/
inductive statement
  | boolean (b : boolean_statement)
  | block (b : block_statement)
  | if_ (i : if_statement)
  | switch (s : switch_statement)
  | decorated (d : decorated_statement)
/-- Rule `if_statement = if_clause else_clause <END>
arguments_or_redirections_list`. -/
inductive if_statement
  | mk (c : if_clause) (e : else_clause) (args : arguments_or_redirections_list)
/-- Rule `if_clause = <IF> job STATEMENT_TERMINATOR job_list`. -/
inductive if_clause
  | mk (j : job) (t : STATEMENT_TERMINATOR) (body : job_list)
/-- Rule `else_clause = <empty> | <ELSE> else_continuation`. -/
inductive else_clause
  | empty
  | else_ (c : else_continuation)
/-- Rule `else_continuation = if_clause else_clause |
STATEMENT_TERMINATOR job_list`. -/
inductive else_continuation
  | elif (c : if_clause) (e : else_clause)
  | body (t : STATEMENT_TERMINATOR) (l : job_list)
/-- Rule `switch_statement = SWITCH <TOK_STRING> STATEMENT_TERMINATOR
case_item_list <END>`. -/
inductive switch_statement
  | mk (arg : parse_keyword_t) (t : STATEMENT_TERMINATOR) (items : case_item_list)
/-- Rule `case_item_list = <empty> | case_item case_item_list`. -/
inductive case_item_list
  | empty
  | cons (i : case_item) (rest : case_item_list)
/-- Rule `case_item = CASE argument_list STATEMENT_TERMINATOR job_list`. -/
inductive case_item
  | mk (args : argument_list) (t : STATEMENT_TERMINATOR) (body : job_list)
/-- Rule `block_statement = block_header <TOK_END> job_list <END>
arguments_or_redirections_list`. -/
inductive block_statement
  | mk (h : block_header) (body : job_list) (args : arguments_or_redirections_list)
/-- Rule `block_header = for_header | while_header | function_header |
begin_header`. -/
inductive block_header
  | for_ (h : for_header)
  | while_ (h : while_header)
  | function (h : function_header)
  | begin_ (h : begin_header)
/-- Rule `while_header = WHILE statement`. -/
inductive while_header
  | mk (s : statement)
/-- Rule `boolean_statement = AND statement | OR statement | NOT statement`. -/
inductive boolean_statement
  | and_ (s : statement)
  | or_ (s : statement)
  | not_ (s : statement)
end

/-! ### Derived token sequences -/

/-- Tokens of a `terminator`. -/
def terminator.yield : terminator → List token
  | .tok_end => [TOK_END]
  | .tok_background => [TOK_BACKGROUND]

/-- Tokens of an `optional_background`. -/
def optional_background.yield : optional_background → List token
  | .empty => []
  | .background => [TOK_BACKGROUND]

/-- Tokens of a `redirection`. -/
def redirection.yield : redirection → List token
  | .mk => [TOK_REDIRECTION]

/-- Tokens of an `argument_or_redirection`. -/
def argument_or_redirection.yield : argument_or_redirection → List token
  | .redirection r => r.yield
  | .string k => [TOK_STRING k]

/-- Tokens of an `arguments_or_redirections_list`. -/
def arguments_or_redirections_list.yield : arguments_or_redirections_list → List token
  | .empty => []
  | .cons a rest => a.yield ++ rest.yield

mutual
/-- Tokens of an `argument_list_nonempty`. -/
def argument_list_nonempty.yield : argument_list_nonempty → List token
  | .mk k rest => TOK_STRING k :: rest.yield
/-- Tokens of an `argument_list`. -/
def argument_list.yield : argument_list → List token
  | .empty => []
  | .nonempty l => l.yield
end

/-- Tokens of a `plain_statement`. -/
def plain_statement.yield : plain_statement → List token
  | .mk c args bg => TOK_STRING c :: (args.yield ++ bg.yield)

/-- Tokens of a `decorated_statement`. -/
def decorated_statement.yield : decorated_statement → List token
  | .command p => TOK_STRING parse_keyword_command :: p.yield
  | .builtin p => TOK_STRING parse_keyword_builtin :: p.yield
  | .plain p => p.yield

/-- Tokens of a `for_header`. -/
def for_header.yield : for_header → List token
  | .mk v args =>
    TOK_STRING parse_keyword_for :: (v.tokens ++ TOK_STRING parse_keyword_in :: args.yield)

/-- Tokens of a `begin_header`. -/
def begin_header.yield : begin_header → List token
  | .mk => [TOK_STRING parse_keyword_begin]

/-- Tokens of a `function_header`. -/
def function_header.yield : function_header → List token
  | .mk n args => TOK_STRING parse_keyword_function :: (n.tokens ++ args.yield)

mutual
/-- Tokens of a `job_list`. -/
def job_list.yield : job_list → List token
  | .empty => []
  | .tok_end rest => TOK_END :: rest.yield
  | .cons j rest => j.yield ++ rest.yield
/-- Tokens of a `job`. -/
def job.yield : job → List token
  | .mk s c => s.yield ++ c.yield
/-- Tokens of a `job_continuation`. -/
def job_continuation.yield : job_continuation → List token
  | .empty => []
  | .pipe s c => TOK_PIPE :: (s.yield ++ c.yield)
/-- Tokens of a `statement`. -/
def statement.yield : statement → List token
  | .boolean b => b.yield
  | .block b => b.yield
  | .if_ i => i.yield
  | .switch s => s.yield
  | .decorated d => d.yield
/-- Tokens of an `if_statement`. -/
def if_statement.yield : if_statement → List token
  | .mk c e args => c.yield ++ (e.yield ++ TOK_STRING parse_keyword_end :: args.yield)
/-- Tokens of an `if_clause`. -/
def if_clause.yield : if_clause → List token
  | .mk j t body => TOK_STRING parse_keyword_if :: (j.yield ++ (t.tokens ++ body.yield))
/-- Tokens of an `else_clause`. -/
def else_clause.yield : else_clause → List token
  | .empty => []
  | .else_ c => TOK_STRING parse_keyword_else :: c.yield
/-- Tokens of an `else_continuation`. -/
def else_continuation.yield : else_continuation → List token
  | .elif c e => c.yield ++ e.yield
  | .body t l => t.tokens ++ l.yield
/-- Tokens of a `switch_statement`. -/
def switch_statement.yield : switch_statement → List token
  | .mk a t items =>
    TOK_STRING parse_keyword_switch :: TOK_STRING a ::
      (t.tokens ++ (items.yield ++ [TOK_STRING parse_keyword_end]))
/-- Tokens of a `case_item_list`. -/
def case_item_list.yield : case_item_list → List token
  | .empty => []
  | .cons i rest => i.yield ++ rest.yield
/-- Tokens of a `case_item`. -/
def case_item.yield : case_item → List token
  | .mk args t body => TOK_STRING parse_keyword_case :: (args.yield ++ (t.tokens ++ body.yield))
/-- Tokens of a `block_statement`. -/
def block_statement.yield : block_statement → List token
  | .mk h body args =>
    h.yield ++ TOK_END :: (body.yield ++ TOK_STRING parse_keyword_end :: args.yield)
/-- Tokens of a `block_header`. -/
def block_header.yield : block_header → List token
  | .for_ h => h.yield
  | .while_ h => h.yield
  | .function h => h.yield
  | .begin_ h => h.yield
/-- Tokens of a `while_header`. -/
def while_header.yield : while_header → List token
  | .mk s => TOK_STRING parse_keyword_while :: s.yield
/-- Tokens of a `boolean_statement`. -/
def boolean_statement.yield : boolean_statement → List token
  | .and_ s => TOK_STRING parse_keyword_and :: s.yield
  | .or_ s => TOK_STRING parse_keyword_or :: s.yield
  | .not_ s => TOK_STRING parse_keyword_not :: s.yield
end

/-- The leading `statement` of a `job`. -/
def job.first : job → statement
  | .mk s _ => s

/-! ### The specification's formulation of argument lists -/

/-- The table row `argument_list: empty, or string argument_list`. -/
inductive spec_argument_list
  | empty
  | cons (keyword : parse_keyword_t) (rest : spec_argument_list)
  deriving DecidableEq, Repr

/-- The table row `argument_list_nonempty: string argument_list`. -/
inductive spec_argument_list_nonempty
  | mk (keyword : parse_keyword_t) (rest : spec_argument_list)
  deriving DecidableEq, Repr

/-- Tokens of a `spec_argument_list`. -/
def spec_argument_list.yield : spec_argument_list → List token
  | .empty => []
  | .cons k rest => TOK_STRING k :: rest.yield

/-- Tokens of a `spec_argument_list_nonempty`. -/
def spec_argument_list_nonempty.yield : spec_argument_list_nonempty → List token
  | .mk k rest => TOK_STRING k :: rest.yield

/-- The header derivation of a sequence of string tokens given by their keywords. -/
def argument_list.ofKeywords : List parse_keyword_t → argument_list
  | [] => .empty
  | k :: ks => .nonempty (.mk k (argument_list.ofKeywords ks))

/-- The table derivation of a sequence of string tokens given by their keywords. -/
def spec_argument_list.ofKeywords : List parse_keyword_t → spec_argument_list
  | [] => .empty
  | k :: ks => .cons k (spec_argument_list.ofKeywords ks)

mutual
/-- Keywords of the string tokens of an `argument_list_nonempty`. -/
def argument_list_nonempty.keywords : argument_list_nonempty → List parse_keyword_t
  | .mk k rest => k :: rest.keywords
/-- Keywords of the string tokens of an `argument_list`. -/
def argument_list.keywords : argument_list → List parse_keyword_t
  | .empty => []
  | .nonempty l => l.keywords
end

/-- Keywords of the string tokens of a `spec_argument_list`. -/
def spec_argument_list.keywords : spec_argument_list → List parse_keyword_t
  | .empty => []
  | .cons k rest => k :: rest.keywords


/-! ## Theorems about nodes and the store -/

theorem NODE_OFFSET_INVALID_eq (w : Nat) : NODE_OFFSET_INVALID w = 2 ^ w - 1 := by
  unfold NODE_OFFSET_INVALID
  have hpos : (0 : Int) < (2 : Int) ^ w := by positivity
  have h : (-1 : Int) % (2 : Int) ^ w = (2 : Int) ^ w - 1 := by
    have e : (-1 : Int) = ((2 : Int) ^ w - 1) + (-1) * (2 : Int) ^ w := by ring
    rw [e, Int.add_mul_emod_self]
    exact Int.emod_eq_of_lt (by omega) (by omega)
  rw [h]
  have h2 : ((2 : Int) ^ w - 1) = (((2 : Nat) ^ w - 1 : Nat) : Int) := by
    have : 1 ≤ 2 ^ w := Nat.one_le_two_pow
    push_cast [this]
    rfl
  rw [h2, Int.toNat_ofNat]

theorem child_offset_of_lt (w : Nat) (n : parse_node_t) (which : Nat)
    (h : which < n.child_count) :
    n.child_offset w which = some ((n.child_start + which) % 2 ^ w) := by
  simp [parse_node_t.child_offset, h]

theorem child_offset_no_wrap (w : Nat) (n : parse_node_t) (which : Nat)
    (hfit : n.child_start + n.child_count ≤ 2 ^ w) (h : which < n.child_count) :
    n.child_offset w which = some (n.child_start + which) := by
  rw [child_offset_of_lt w n which h, Nat.mod_eq_of_lt (by omega)]

/-- C1: `child_offset(which)` succeeds exactly when `which < child_count`; when it
succeeds it returns `child_start + which` in `size_t` arithmetic (modulo `2 ^ w`);
index 0 maps to `child_start` and each next index to the next offset (in `size_t`),
which are the plain successors `child_start + which` whenever the child range
does not wrap. -/
theorem child_offset_contract (w : Nat) (n : parse_node_t) (which : Nat)
    (hstart : n.child_start < 2 ^ w) :
    ((n.child_offset w which).isSome ↔ which < n.child_count) ∧
    (which < n.child_count →
      n.child_offset w which = some ((n.child_start + which) % 2 ^ w)) ∧
    (0 < n.child_count → n.child_offset w 0 = some n.child_start) ∧
    (which + 1 < n.child_count →
      ∃ o, n.child_offset w which = some o ∧
        n.child_offset w (which + 1) = some ((o + 1) % 2 ^ w)) ∧
    (n.child_start + n.child_count ≤ 2 ^ w → which < n.child_count →
      n.child_offset w which = some (n.child_start + which)) := by
  refine ⟨?_, child_offset_of_lt w n which, ?_, ?_, child_offset_no_wrap w n which⟩
  · unfold parse_node_t.child_offset
    split <;> simp [*]
  · intro h
    rw [child_offset_of_lt w n 0 h, Nat.add_zero, Nat.mod_eq_of_lt hstart]
  · intro h
    refine ⟨(n.child_start + which) % 2 ^ w, child_offset_of_lt w n which (by omega), ?_⟩
    rw [child_offset_of_lt w n (which + 1) h, ← Nat.add_assoc, Nat.mod_add_mod]

/-- Witness for C1 on the root of `sample_tree` with a 64-bit `size_t`. -/
theorem child_offset_contract_witness :
    (sample_tree.get ⟨0, by decide⟩).child_offset 64 1 = some 2 :=
  (child_offset_contract 64 (sample_tree.get ⟨0, by decide⟩) 1 (by decide)).2.2.2.2
    (by decide) (by decide)

/-- C2: in a store `t` (whose size fits `size_t`), for a node `n` of `t` with
`child_start + child_count ≤ t.size()` and an index `which < child_count`,
`child_offset(which)` succeeds with an offset `o` such that
`child_start ≤ o < t.size()`, so position `o` of the store exists. -/
theorem child_offset_in_store (w : Nat) (t : parse_node_tree_t) (n : parse_node_t)
    (which : Nat) (hsize : t.size < 2 ^ w) (_hn : n ∈ t)
    (hrange : n.child_start + n.child_count ≤ t.size) (hwhich : which < n.child_count) :
    ∃ o, n.child_offset w which = some o ∧ n.child_start ≤ o ∧ o < t.size ∧
      (t.get? o).isSome := by
  have hlt : n.child_start + which < t.size := by omega
  refine ⟨n.child_start + which, ?_, by omega, hlt, ?_⟩
  · exact child_offset_no_wrap w n which (by omega) hwhich
  · rw [List.get?_eq_get hlt]; rfl

/-- Witness for C2 on the root of `sample_tree` with a 64-bit `size_t`. -/
theorem child_offset_in_store_witness :
    ∃ o, (sample_tree.get ⟨0, by decide⟩).child_offset 64 1 = some o ∧
      (sample_tree.get ⟨0, by decide⟩).child_start ≤ o ∧ o < sample_tree.size ∧
      (sample_tree.get? o).isSome :=
  child_offset_in_store 64 sample_tree (sample_tree.get ⟨0, by decide⟩) 1
    (by decide) (by decide) (by decide) (by decide)

/-- C3: in a store satisfying invariants 1 and 2 (and whose size fits `size_t`),
if `child_offset(i)` of the node at position `a` equals `child_offset(j)` of the
node at position `b`, with `i` and `j` below the respective child counts, then
`a = b` (the same node of the store) and `i = j`. -/
theorem child_offset_unique_parent (w : Nat) (t : parse_node_tree_t)
    (hsize : t.size < 2 ^ w) (h1 : t.children_in_store) (h2 : t.ranges_disjoint)
    (a b : Nat) (ha : a < t.length) (hb : b < t.length) (i j : Nat)
    (hi : i < (t.get ⟨a, ha⟩).child_count) (hj : j < (t.get ⟨b, hb⟩).child_count)
    (heq : (t.get ⟨a, ha⟩).child_offset w i = (t.get ⟨b, hb⟩).child_offset w j) :
    a = b ∧ i = j := by
  have hp := h1 (t.get ⟨a, ha⟩) (List.get_mem t a ha) (by omega)
  have hq := h1 (t.get ⟨b, hb⟩) (List.get_mem t b hb) (by omega)
  have hsz : t.size = t.length := rfl
  rw [child_offset_no_wrap w _ i (by omega) hi, child_offset_no_wrap w _ j (by omega) hj]
    at heq
  have heq2 : (t.get ⟨a, ha⟩).child_start + i = (t.get ⟨b, hb⟩).child_start + j := by
    simpa using heq
  have hab : a = b := by
    by_contra hne
    refine h2 a ha b hb hne ((t.get ⟨a, ha⟩).child_start + i) (by omega) ⟨?_, ?_⟩
    · exact ⟨by omega, by omega⟩
    · exact ⟨by omega, by omega⟩
  subst hab
  exact ⟨rfl, by omega⟩

/-- Witness for C3 on `sample_tree`, which satisfies both invariants: the root's
second child slot is reached from the root only, at index 1. -/
theorem child_offset_unique_parent_witness :
    sample_tree.children_in_store ∧ sample_tree.ranges_disjoint ∧
    (sample_tree.get ⟨0, by decide⟩).child_offset 64 1 = some 2 ∧
    ((0 : Nat) = 0 ∧ (1 : Nat) = 1) :=
  ⟨by decide, by decide, by decide,
    child_offset_unique_parent 64 sample_tree (by decide) (by decide) (by decide)
      0 0 (by decide) (by decide) 1 1 (by decide) (by decide) rfl⟩

/-- C4: a node built by `parse_node_t(ty)` has type `ty`, no children, and
`source_start`, `source_length`, `child_start` and `tag` all 0; `child_offset`
fails on it for every index. -/
theorem init_fresh (ty : parse_token_type_t) :
    (parse_node_t.init ty).type = ty ∧ (parse_node_t.init ty).child_count = 0 ∧
    (parse_node_t.init ty).source_start = 0 ∧ (parse_node_t.init ty).source_length = 0 ∧
    (parse_node_t.init ty).child_start = 0 ∧ (parse_node_t.init ty).tag = 0 ∧
    ∀ w which, (parse_node_t.init ty).child_offset w which = none := by
  refine ⟨rfl, rfl, rfl, rfl, rfl, rfl, ?_⟩
  intro w which
  simp [parse_node_t.child_offset, parse_node_t.init]

/-- C10: in a store `t` whose size fits `size_t`, for a node `n` of `t` with
`child_start + child_count ≤ t.size()` and `which < child_count`,
`child_offset(which)` succeeds and its result is not `NODE_OFFSET_INVALID`. -/
theorem child_offset_ne_invalid (w : Nat) (t : parse_node_tree_t) (n : parse_node_t)
    (which : Nat) (hsize : t.size ≤ 2 ^ w - 1) (_hn : n ∈ t)
    (hrange : n.child_start + n.child_count ≤ t.size) (hwhich : which < n.child_count) :
    ∃ o, n.child_offset w which = some o ∧ o ≠ NODE_OFFSET_INVALID w := by
  refine ⟨n.child_start + which, ?_, ?_⟩
  · exact child_offset_no_wrap w n which (by omega) hwhich
  · rw [NODE_OFFSET_INVALID_eq]; omega

/-- Witness for C10 on the third node of `sample_tree` with a 64-bit `size_t`. -/
theorem child_offset_ne_invalid_witness :
    ∃ o, (sample_tree.get ⟨2, by decide⟩).child_offset 64 0 = some o ∧
      o ≠ NODE_OFFSET_INVALID 64 :=
  child_offset_ne_invalid 64 sample_tree (sample_tree.get ⟨2, by decide⟩) 0
    (by decide) (by decide) (by decide) (by decide)

/-! ## Theorems about the enumeration of kinds -/

/-- C5, as stated, fails: `token_type_invalid` and `symbol_argument_or_redirection`
are values of the enumeration that the specification does not list. -/
theorem spec_kinds_not_exhaustive :
    token_type_invalid ∉ spec_kinds ∧ symbol_argument_or_redirection ∉ spec_kinds ∧
    ¬ ∀ k : parse_token_type_t, k ∈ spec_kinds := by
  refine ⟨by decide, by decide, ?_⟩
  intro h
  exact absurd (h token_type_invalid) (by decide)

/-- C5, amended: the thirty kinds listed by the specification are thirty distinct
values of `parse_token_type_t`, and the enumeration has exactly two more values,
`token_type_invalid` and `symbol_argument_or_redirection`. -/
theorem spec_kinds_all_but_two :
    spec_kinds.length = 30 ∧ spec_kinds.Nodup ∧
    ∀ k : parse_token_type_t,
      k ∈ spec_kinds ↔ (k ≠ token_type_invalid ∧ k ≠ symbol_argument_or_redirection) := by
  refine ⟨rfl, by decide, ?_⟩
  intro k
  cases k <;> decide

/-- C9: a kind is one of `string, pipe, redirection, background, end, terminate`
exactly when its numeric value is at least `FIRST_PARSE_TOKEN_TYPE` (which is
`parse_token_type_string`, value 26); `token_type_invalid` and the `symbol_*`
kinds are exactly the kinds with a value strictly below it. -/
theorem terminal_types_tail (k : parse_token_type_t) :
    FIRST_PARSE_TOKEN_TYPE = parse_token_type_string ∧
    (k ∈ terminal_types ↔ FIRST_PARSE_TOKEN_TYPE.toNat ≤ k.toNat) ∧
    ((k = token_type_invalid ∨ k ∈ nonterminal_symbols) ↔
      k.toNat < FIRST_PARSE_TOKEN_TYPE.toNat) := by
  refine ⟨rfl, ?_, ?_⟩ <;> cases k <;> decide

/-! ## Theorems about the grammar -/

theorem statement_head (s : statement) : ∃ k ts, s.yield = TOK_STRING k :: ts := by
  cases s with
  | boolean b =>
    cases b <;> simp [statement.yield, boolean_statement.yield]
  | block b =>
    rcases b with ⟨h, body, args⟩
    rcases h with ⟨⟨v, a⟩⟩ | ⟨⟨s⟩⟩ | ⟨⟨n, a⟩⟩ | ⟨⟨⟩⟩ <;>
      simp [statement.yield, block_statement.yield, block_header.yield, for_header.yield,
        while_header.yield, function_header.yield, begin_header.yield]
  | if_ i =>
    rcases i with ⟨⟨j, t, body⟩, e, args⟩
    simp [statement.yield, if_statement.yield, if_clause.yield]
  | switch s =>
    cases s
    simp [statement.yield, switch_statement.yield]
  | decorated d =>
    rcases d with ⟨⟨c, a, b⟩⟩ | ⟨⟨c, a, b⟩⟩ | ⟨⟨c, a, b⟩⟩ <;>
      simp [statement.yield, decorated_statement.yield, plain_statement.yield]

theorem job_yield_ne_nil (j : job) : j.yield ≠ [] := by
  cases j with
  | mk s c =>
    obtain ⟨k, ts, h⟩ := statement_head s
    simp [job.yield, h]

/-- C6: every token sequence derived from `job` is non-empty and starts with the
first token of its leading statement, which is itself non-empty; `job_list`
derives the empty token sequence. -/
theorem job_never_empty :
    (∀ j : job, j.yield ≠ [] ∧ j.first.yield ≠ [] ∧
      j.yield.head? = j.first.yield.head?) ∧
    (∃ d : job_list, d.yield = []) := by
  refine ⟨?_, ⟨.empty, rfl⟩⟩
  intro j
  refine ⟨job_yield_ne_nil j, ?_, ?_⟩
  · cases j with
    | mk s c =>
      obtain ⟨k, ts, h⟩ := statement_head s
      simp [job.first, h]
  · cases j with
    | mk s c =>
      obtain ⟨k, ts, h⟩ := statement_head s
      simp [job.first, job.yield, h]

mutual
theorem argument_list_nonempty_yield_eq_map :
    ∀ d : argument_list_nonempty, d.yield = d.keywords.map TOK_STRING
  | .mk k rest => by
    simp [argument_list_nonempty.yield, argument_list_nonempty.keywords,
      argument_list_yield_eq_map rest]
theorem argument_list_yield_eq_map :
    ∀ d : argument_list, d.yield = d.keywords.map TOK_STRING
  | .empty => by simp [argument_list.yield, argument_list.keywords]
  | .nonempty l => by
    simp [argument_list.yield, argument_list.keywords,
      argument_list_nonempty_yield_eq_map l]
end

theorem argument_list_ofKeywords_yield (ks : List parse_keyword_t) :
    (argument_list.ofKeywords ks).yield = ks.map TOK_STRING := by
  induction ks with
  | nil => simp [argument_list.ofKeywords, argument_list.yield]
  | cons k ks ih =>
    simp [argument_list.ofKeywords, argument_list.yield, argument_list_nonempty.yield, ih]

theorem spec_argument_list_yield_eq_map (d : spec_argument_list) :
    d.yield = d.keywords.map TOK_STRING := by
  induction d with
  | empty => simp [spec_argument_list.yield, spec_argument_list.keywords]
  | cons k rest ih => simp [spec_argument_list.yield, spec_argument_list.keywords, ih]

theorem spec_argument_list_ofKeywords_yield (ks : List parse_keyword_t) :
    (spec_argument_list.ofKeywords ks).yield = ks.map TOK_STRING := by
  induction ks with
  | nil => simp [spec_argument_list.ofKeywords, spec_argument_list.yield]
  | cons k ks ih => simp [spec_argument_list.ofKeywords, spec_argument_list.yield, ih]

theorem all_strings_iff_map (ts : List token) :
    (∀ t ∈ ts, t.type = parse_token_type_string) ↔
      ∃ ks : List parse_keyword_t, ts = ks.map TOK_STRING := by
  constructor
  · intro h
    refine ⟨ts.map token.keyword, ?_⟩
    induction ts with
    | nil => rfl
    | cons t ts ih =>
      have ht := h t (List.mem_cons_self t ts)
      have ih2 := ih (fun u hu => h u (List.mem_cons_of_mem t hu))
      cases t <;> simp [token.type] at ht
      simp only [List.map_cons, token.keyword, List.cons.injEq, true_and]
      exact ih2
  · rintro ⟨ks, rfl⟩ t ht
    obtain ⟨k, -, rfl⟩ := List.mem_map.mp ht
    rfl

theorem argument_list_derives_iff (ts : List token) :
    (∃ d : argument_list, d.yield = ts) ↔ ∃ ks : List parse_keyword_t, ts = ks.map TOK_STRING := by
  constructor
  · rintro ⟨d, rfl⟩
    exact ⟨d.keywords, argument_list_yield_eq_map d⟩
  · rintro ⟨ks, rfl⟩
    exact ⟨argument_list.ofKeywords ks, argument_list_ofKeywords_yield ks⟩

theorem spec_argument_list_derives_iff (ts : List token) :
    (∃ d : spec_argument_list, d.yield = ts) ↔
      ∃ ks : List parse_keyword_t, ts = ks.map TOK_STRING := by
  constructor
  · rintro ⟨d, rfl⟩
    exact ⟨d.keywords, spec_argument_list_yield_eq_map d⟩
  · rintro ⟨ks, rfl⟩
    exact ⟨spec_argument_list.ofKeywords ks, spec_argument_list_ofKeywords_yield ks⟩

theorem argument_list_nonempty_derives_iff (ts : List token) :
    (∃ d : argument_list_nonempty, d.yield = ts) ↔
      ∃ k, ∃ ks : List parse_keyword_t, ts = TOK_STRING k :: ks.map TOK_STRING := by
  constructor
  · rintro ⟨⟨k, rest⟩, rfl⟩
    exact ⟨k, rest.keywords, by simp [argument_list_nonempty.yield, argument_list_yield_eq_map rest]⟩
  · rintro ⟨k, ks, rfl⟩
    exact ⟨.mk k (argument_list.ofKeywords ks),
      by simp [argument_list_nonempty.yield, argument_list_ofKeywords_yield]⟩

theorem spec_argument_list_nonempty_derives_iff (ts : List token) :
    (∃ d : spec_argument_list_nonempty, d.yield = ts) ↔
      ∃ k, ∃ ks : List parse_keyword_t, ts = TOK_STRING k :: ks.map TOK_STRING := by
  constructor
  · rintro ⟨⟨k, rest⟩, rfl⟩
    exact ⟨k, rest.keywords, by simp [spec_argument_list_nonempty.yield, spec_argument_list_yield_eq_map rest]⟩
  · rintro ⟨k, ks, rfl⟩
    exact ⟨.mk k (spec_argument_list.ofKeywords ks),
      by simp [spec_argument_list_nonempty.yield, spec_argument_list_ofKeywords_yield]⟩

theorem cons_map_iff (ts : List token) :
    (∃ k, ∃ ks : List parse_keyword_t, ts = TOK_STRING k :: ks.map TOK_STRING) ↔
      ts ≠ [] ∧ ∀ t ∈ ts, t.type = parse_token_type_string := by
  rw [all_strings_iff_map]
  constructor
  · rintro ⟨k, ks, rfl⟩
    exact ⟨by simp, k :: ks, rfl⟩
  · rintro ⟨hne, ks, rfl⟩
    cases ks with
    | nil => simp at hne
    | cons k ks => exact ⟨k, ks, rfl⟩

/-- C8: the header's rules for `argument_list` and `argument_list_nonempty` and
the specification table's rules derive the same token sequences: for
`argument_list` exactly the finite sequences of string tokens, the empty one
included, and for `argument_list_nonempty` exactly those with at least one
token. -/
theorem argument_list_formulations_agree (ts : List token) :
    ((∃ d : argument_list, d.yield = ts) ↔ ∃ d : spec_argument_list, d.yield = ts) ∧
    ((∃ d : argument_list_nonempty, d.yield = ts) ↔
      ∃ d : spec_argument_list_nonempty, d.yield = ts) ∧
    ((∃ d : argument_list, d.yield = ts) ↔
      ∀ t ∈ ts, t.type = parse_token_type_string) ∧
    ((∃ d : argument_list_nonempty, d.yield = ts) ↔
      ts ≠ [] ∧ ∀ t ∈ ts, t.type = parse_token_type_string) := by
  refine ⟨?_, ?_, ?_, ?_⟩
  · rw [argument_list_derives_iff, spec_argument_list_derives_iff]
  · rw [argument_list_nonempty_derives_iff, spec_argument_list_nonempty_derives_iff]
  · rw [argument_list_derives_iff, all_strings_iff_map]
  · rw [argument_list_nonempty_derives_iff, cons_map_iff]

end ParseTree
